import Mathlib

/-!
Shallow embedding of the paging and TLB-shootdown core of the managarm kernel
(`src/thor/kernel/src/arch/x86/paging.cpp` and its header).  Page-table words
are modelled as natural numbers manipulated with the same bit operations as
the 64-bit source; page-table memory is a function from (frame base address,
entry index) to the PTE word.  Assertion failures in the source are modelled
by `Option`: a function returns `none` exactly when some `assert` in the
source fails on that input.
-/

namespace ThorPaging

/-! ### PTE attribute constants, from the anonymous enum in paging.cpp -/

def kPagePresent : Nat := 0x1
def kPageWrite : Nat := 0x2
def kPageUser : Nat := 0x4
def kPagePwt : Nat := 0x8
def kPagePcd : Nat := 0x10
def kPagePat : Nat := 0x80
def kPageGlobal : Nat := 0x100
def kPageXd : Nat := 0x8000000000000000

def kPageSize : Nat := 0x1000

/-- Mask extracting the next-level physical address, `0x000FFFFFFFFFF000`. -/
def physMask : Nat := 0x000FFFFFFFFFF000

/-- The enum class CachingMode from paging.hpp. -/
inductive CachingMode where
  | null
  | uncached
  | writeCombine
  | writeThrough
  | writeBack
deriving DecidableEq, Repr

/-- The enum class PageMode from paging.hpp. -/
inductive PageMode where
  | null
  | normal
  | remap
deriving DecidableEq, Repr

namespace page_access

def write : Nat := 1
def execute : Nat := 2

end page_access

/-! ### Page-table memory -/

/-- Page-table memory: maps a frame base address and an entry index to the
64-bit PTE word stored there. -/
def Memory : Type := Nat → Nat → Nat

/-- Store a single PTE word. -/
def Memory.write (m : Memory) (f i v : Nat) : Memory :=
  fun f' i' => if f' = f ∧ i' = i then v else m f' i'

/-- Zero-fill a whole frame (the `for(int i = 0; i < 512; i++) p[i] = 0` /
`memset` pattern in the source). -/
def Memory.zeroFrame (m : Memory) (f : Nat) : Memory :=
  fun f' i' => if f' = f then 0 else m f' i'

/-- Walk indices, e.g. `(int)((pointer >> 39) & 0x1FF)`. -/
def walkIndex (pointer shift : Nat) : Nat := (pointer >>> shift) &&& 0x1FF

/-! ### KernelPageSpace::mapSingle4k -/

/-- The cache-attribute tail of the `new_entry` computation shared by both
mapSingle4k functions: `writeThrough` adds PWT, `writeCombine` adds PAT|PWT,
otherwise `assert(caching_mode == null || caching_mode == writeBack)` and no
bits are added.  `none` models the assertion failing. -/
def cacheBits (cm : CachingMode) : Option Nat :=
  match cm with
  | CachingMode.writeThrough => some kPagePwt
  | CachingMode.writeCombine => some (kPagePat ||| kPagePwt)
  | CachingMode.null => some 0
  | CachingMode.writeBack => some 0
  | CachingMode.uncached => none

/-- One "make sure there is a ..." block of KernelPageSpace::mapSingle4k:
if the entry at `(frame, idx)` is present, descend into the frame it points
to; otherwise allocate `fresh` (zero-filled) and install
`fresh | kPagePresent | kPageWrite`.  Afterwards
`assert(!(entry & kPageUser))`.  Returns the updated memory and the
next-level frame. -/
def kernelNewTable (m : Memory) (frame idx fresh : Nat) : Memory :=
  (m.zeroFrame fresh).write frame idx (fresh ||| kPagePresent ||| kPageWrite)

def kernelEnsure (m : Memory) (frame idx fresh : Nat) : Option (Memory × Nat) :=
  if m frame idx &&& kPagePresent ≠ 0 then
    if m frame idx &&& kPageUser ≠ 0 then none
    else some (m, m frame idx &&& physMask)
  else
    if kernelNewTable m frame idx fresh frame idx &&& kPageUser ≠ 0 then none
    else some (kernelNewTable m frame idx fresh, fresh)

/-- KernelPageSpace::mapSingle4k.  `root` is the PML4 frame; `freshA freshB
freshC` are the frames the physical allocator would hand out for a missing
PDPT, PD and PT respectively.  Returns the new memory together with the
PDPT, PD and PT frames of the walk, or `none` when an assertion fails. -/
def kernelMapSingle4k (m : Memory) (root freshA freshB freshC pointer physical flags : Nat)
    (cm : CachingMode) : Option (Memory × Nat × Nat × Nat) :=
  if pointer % 0x1000 ≠ 0 then none else
  if physical % 0x1000 ≠ 0 then none else
  match kernelEnsure m root (walkIndex pointer 39) freshA with
  | none => none
  | some (m1, pdpt) =>
    match kernelEnsure m1 pdpt (walkIndex pointer 30) freshB with
    | none => none
    | some (m2, pd) =>
      match kernelEnsure m2 pd (walkIndex pointer 21) freshC with
      | none => none
      | some (m3, pt) =>
        if m3 pt (walkIndex pointer 12) &&& kPagePresent ≠ 0 then none else
        match cacheBits cm with
        | none => none
        | some cbits =>
          let e0 := physical ||| kPagePresent ||| kPageGlobal
          let e1 := if flags &&& page_access.write ≠ 0 then e0 ||| kPageWrite else e0
          let e2 := if flags &&& page_access.execute ≠ 0 then e1 else e1 ||| kPageXd
          some (m3.write pt (walkIndex pointer 12) (e2 ||| cbits), pdpt, pd, pt)

/-- KernelPageSpace::unmapSingle4k.  Walks the four levels, asserting
presence at each, clears the Present bit of the leaf by XOR and returns the
physical frame read back from the leaf. -/
def kernelUnmapSingle4k (m : Memory) (root pointer : Nat) : Option (Memory × Nat) :=
  if pointer % 0x1000 ≠ 0 then none else
  let e4 := m root (walkIndex pointer 39)
  if e4 &&& kPagePresent = 0 then none else
  let pdpt := e4 &&& physMask
  let e3 := m pdpt (walkIndex pointer 30)
  if e3 &&& kPagePresent = 0 then none else
  let pd := e3 &&& physMask
  let e2 := m pd (walkIndex pointer 21)
  if e2 &&& kPagePresent = 0 then none else
  let pt := e2 &&& physMask
  let leaf := m pt (walkIndex pointer 12)
  if leaf &&& kPagePresent = 0 then none else
  some (m.write pt (walkIndex pointer 12) (leaf ^^^ kPagePresent),
        (leaf ^^^ kPagePresent) &&& physMask)

/-! ### ClientPageSpace::mapSingle4k -/

/-- The trailing assertion of each client walk block:
`assert(user_page ? (entry & kPageUser) != 0 : (entry & kPageUser) == 0)`. -/
def clientUserOk (m : Memory) (frame idx : Nat) (userPage : Bool) : Bool :=
  if userPage then decide (m frame idx &&& kPageUser ≠ 0)
  else decide (m frame idx &&& kPageUser = 0)

/-- One "Make sure there is a ..." block of ClientPageSpace::mapSingle4k:
like `kernelEnsure`, but a newly created entry also carries `kPageUser` when
`userPage` is true, and the trailing assertion demands that the User bit of
the entry match `userPage` in both directions. -/
def clientNewTable (m : Memory) (frame idx fresh : Nat) (userPage : Bool) : Memory :=
  (m.zeroFrame fresh).write frame idx
    (if userPage then fresh ||| kPagePresent ||| kPageWrite ||| kPageUser
     else fresh ||| kPagePresent ||| kPageWrite)

def clientEnsure (m : Memory) (frame idx fresh : Nat) (userPage : Bool) :
    Option (Memory × Nat) :=
  if m frame idx &&& kPagePresent ≠ 0 then
    if clientUserOk m frame idx userPage then some (m, m frame idx &&& physMask)
    else none
  else
    if clientUserOk (clientNewTable m frame idx fresh userPage) frame idx userPage then
      some (clientNewTable m frame idx fresh userPage, fresh)
    else none

/-- ClientPageSpace::mapSingle4k.  Same walk discipline as the kernel map;
the leaf entry carries `kPageUser` when `userPage` is true and never
`kPageGlobal`. -/
def clientMapSingle4k (m : Memory) (root freshA freshB freshC pointer physical : Nat)
    (userPage : Bool) (flags : Nat) (cm : CachingMode) :
    Option (Memory × Nat × Nat × Nat) :=
  if pointer % 0x1000 ≠ 0 then none else
  if physical % 0x1000 ≠ 0 then none else
  match clientEnsure m root (walkIndex pointer 39) freshA userPage with
  | none => none
  | some (m1, pdpt) =>
    match clientEnsure m1 pdpt (walkIndex pointer 30) freshB userPage with
    | none => none
    | some (m2, pd) =>
      match clientEnsure m2 pd (walkIndex pointer 21) freshC userPage with
      | none => none
      | some (m3, pt) =>
        if m3 pt (walkIndex pointer 12) &&& kPagePresent ≠ 0 then none else
        match cacheBits cm with
        | none => none
        | some cbits =>
          let e0 := physical ||| kPagePresent
          let e1 := if userPage then e0 ||| kPageUser else e0
          let e2 := if flags &&& page_access.write ≠ 0 then e1 ||| kPageWrite else e1
          let e3 := if flags &&& page_access.execute ≠ 0 then e2 else e2 ||| kPageXd
          some (m3.write pt (walkIndex pointer 12) (e3 ||| cbits), pdpt, pd, pt)

/-! ### ClientPageSpace::unmapRange and ClientPageSpace::isMapped -/

/-- The body of one iteration of the loop in ClientPageSpace::unmapRange, at
virtual address `addr`.  In `remap` mode an absent entry at any level skips
the page (`continue`); otherwise absence is an assertion failure.  The leaf
has its Present bit cleared by `& ~kPagePresent` (a 64-bit AND in the
source, hence the mask `0xFFFFFFFFFFFFFFFE`). -/
def clientUnmapStep (m : Memory) (root addr : Nat) (mode : PageMode) : Option Memory :=
  let e4 := m root (walkIndex addr 39)
  if e4 &&& kPagePresent = 0 then
    (if mode = PageMode.remap then some m else none)
  else
    let pdpt := e4 &&& physMask
    let e3 := m pdpt (walkIndex addr 30)
    if e3 &&& kPagePresent = 0 then
      (if mode = PageMode.remap then some m else none)
    else
      let pd := e3 &&& physMask
      let e2 := m pd (walkIndex addr 21)
      if e2 &&& kPagePresent = 0 then
        (if mode = PageMode.remap then some m else none)
      else
        let pt := e2 &&& physMask
        let leaf := m pt (walkIndex addr 12)
        if leaf &&& kPagePresent = 0 then
          (if mode = PageMode.remap then some m else none)
        else
          some (m.write pt (walkIndex addr 12) (leaf &&& 0xFFFFFFFFFFFFFFFE))

/-- The loop of ClientPageSpace::unmapRange, iterating `count` pages upward
from `addr`. -/
def clientUnmapPages (m : Memory) (root addr : Nat) (mode : PageMode) :
    Nat → Option Memory
  | 0 => some m
  | Nat.succ n =>
    match clientUnmapStep m root addr mode with
    | none => none
    | some m1 => clientUnmapPages m1 root (addr + kPageSize) mode n

/-- ClientPageSpace::unmapRange: asserts page alignment of `pointer` and
`size`, then iterates the per-page body. -/
def clientUnmapRange (m : Memory) (root pointer size : Nat) (mode : PageMode) :
    Option Memory :=
  if pointer &&& (kPageSize - 1) ≠ 0 then none else
  if size &&& (kPageSize - 1) ≠ 0 then none else
  clientUnmapPages m root pointer mode (size / kPageSize)

/-- ClientPageSpace::isMapped.  Asserts page alignment of `pointer`, then
walks the tree; returns `false` as soon as one level is absent, otherwise
whether the leaf has the Present bit. -/
def isMapped (m : Memory) (root pointer : Nat) : Option Bool :=
  if pointer &&& (kPageSize - 1) ≠ 0 then none else
  let e4 := m root (walkIndex pointer 39)
  if e4 &&& kPagePresent = 0 then some false else
  let pdpt := e4 &&& physMask
  let e3 := m pdpt (walkIndex pointer 30)
  if e3 &&& kPagePresent = 0 then some false else
  let pd := e3 &&& physMask
  let e2 := m pd (walkIndex pointer 21)
  if e2 &&& kPagePresent = 0 then some false else
  let pt := e2 &&& physMask
  some (m pt (walkIndex pointer 12) &&& kPagePresent ≠ 0)

/-- Modelled from the spec sentence for C5 ("returns whether a leaf is
present"): a present leaf PTE exists for `pointer` iff the four-level walk
finds a present entry at every level.  This is the spec-side reading that
`isMapped` is compared against. -/
def leafPresentSpec (m : Memory) (root pointer : Nat) : Bool :=
  let e4 := m root (walkIndex pointer 39)
  let e3 := m (e4 &&& physMask) (walkIndex pointer 30)
  let e2 := m (e3 &&& physMask) (walkIndex pointer 21)
  let e1 := m (e2 &&& physMask) (walkIndex pointer 12)
  (e4 &&& kPagePresent ≠ 0) ∧ (e3 &&& kPagePresent ≠ 0) ∧
    (e2 &&& kPagePresent ≠ 0) ∧ (e1 &&& kPagePresent ≠ 0)

/-! ### Shootdown bookkeeping: ShootNode, PageSpace, PageBinding, PageContext -/

/-- The fields of a ShootNode that the queue algorithms read and write:
`id` stands for the node's identity (its address in the source), `sequence`
for `_sequence` and `bindingsToShoot` for the atomic `_bindingsToShoot`
counter (an `unsigned int`, hence kept below `2^32`). -/
structure ShootNodeSt where
  id : Nat
  sequence : Nat
  bindingsToShoot : Nat
deriving DecidableEq, Repr

/-- The mutable fields of a PageSpace: `_numBindings`, `_shootSequence` and
`_shootQueue` (listed front first; `push_back` appends). -/
structure SpaceSt where
  numBindings : Nat
  shootSequence : Nat
  shootQueue : List ShootNodeSt
deriving DecidableEq, Repr

/-- Observable actions of PageSpace::submitShootdown, in program order:
taking and dropping the space's lock, firing a node's completion callback
(`node->shotDown(node)`), and `sendShootdownIpi()`. -/
inductive SubmitEvent where
  | lockAcquired
  | lockReleased
  | completed (id : Nat)
  | ipiSent
deriving DecidableEq, Repr

/-- PageSpace::submitShootdown.  With bindings present, the node gets
`_sequence = _shootSequence++` (post-increment) and
`_bindingsToShoot = _numBindings` and is appended to the queue, and an IPI
is sent after the lock is dropped; with no bindings, the callback runs
after the lock is dropped and nothing else happens. -/
def submitShootdown (s : SpaceSt) (nid : Nat) : SpaceSt × List SubmitEvent :=
  if s.numBindings ≠ 0 then
    ({ numBindings := s.numBindings,
       shootSequence := s.shootSequence + 1,
       shootQueue := s.shootQueue ++ [⟨nid, s.shootSequence, s.numBindings⟩] },
     [SubmitEvent.lockAcquired, SubmitEvent.lockReleased, SubmitEvent.ipiSent])
  else
    (s, [SubmitEvent.lockAcquired, SubmitEvent.lockReleased, SubmitEvent.completed nid])

/-- `fetch_sub(1)` on the `unsigned int` counter. -/
def decrementCounter (b : Nat) : Nat := (b + 0xFFFFFFFF) % 0x100000000

/-- The backward queue scan shared by PageBinding::rebind and
PageBinding::shootdown, on the reversed queue (head = queue tail).  While
the visited node has `sequence > alreadyShot`, its `bindingsToShoot` is
decremented; the binding seeing the count drop from 1 unlinks the node and
collects it.  Returns the remaining (still reversed) queue and the ids of
collected nodes in the order their callbacks later fire
(`push_front` builds the completion list oldest-first). -/
def scanRev (alreadyShot : Nat) : List ShootNodeSt → List ShootNodeSt × List Nat
  | [] => ([], [])
  | n :: rest =>
    if alreadyShot < n.sequence then
      let p := scanRev alreadyShot rest
      if n.bindingsToShoot = 1 then (p.1, p.2 ++ [n.id])
      else ({ n with bindingsToShoot := decrementCounter n.bindingsToShoot } :: p.1, p.2)
    else (n :: rest, [])

/-- The backward scan on the queue in its stored (front-first) order. -/
def scanQueue (alreadyShot : Nat) (queue : List ShootNodeSt) :
    List ShootNodeSt × List Nat :=
  let p := scanRev alreadyShot queue.reverse
  (p.1.reverse, p.2)

/-- The fields of a PageBinding.  `boundSpace = some sid` models a non-null
weak pointer to the space with identity `sid`; whether it can still be
upgraded is decided by the `alive` predicate passed to the operations. -/
structure BindingSt where
  pcid : Nat
  boundSpace : Option Nat
  wasRebound : Bool
  primaryStamp : Nat
  alreadyShotSequence : Nat
deriving DecidableEq, Repr

/-- `_boundSpace.grab()`: the upgraded space identity, or `none` when the
weak pointer is null or the space has died. -/
def grabSpace (alive : Nat → Bool) (b : BindingSt) : Option Nat :=
  match b.boundSpace with
  | some sid => if alive sid then some sid else none
  | none => none

/-- Point update of the space table. -/
def updateSpace (sp : Nat → SpaceSt) (sid : Nat) (s : SpaceSt) : Nat → SpaceSt :=
  fun x => if x = sid then s else sp x

/-- PageBinding::shootdown.  If the bound space is dead, the binding
invalidates its PCID and clears the weak pointer without touching any
queue.  Otherwise, with a non-empty queue, it scans backwards from the
tail, completes the collected nodes and records the tail's sequence in
`_alreadyShotSequence`.  Returns the new binding, the new space table and
the ids whose callbacks fired. -/
def bindingShootdown (b : BindingSt) (alive : Nat → Bool) (sp : Nat → SpaceSt) :
    BindingSt × (Nat → SpaceSt) × List Nat :=
  match b.boundSpace with
  | none => (b, sp, [])
  | some sid =>
    if alive sid then
      let s := sp sid
      match s.shootQueue.getLast? with
      | none => (b, sp, [])
      | some tailNode =>
        let p := scanQueue b.alreadyShotSequence s.shootQueue
        ({ b with alreadyShotSequence := tailNode.sequence },
         updateSpace sp sid { s with shootQueue := p.1 },
         p.2)
    else
      ({ b with boundSpace := none }, sp, [])

/-- PageBinding::rebind.  An early return when the grabbed space already is
`newSid`; otherwise `_wasRebound` is set, the old space's queue is drained
for this binding and its `_numBindings` drops, and the binding attaches to
the new space with `_alreadyShotSequence` snapshotting the new space's
`_shootSequence`. -/
def bindingRebind (b : BindingSt) (newSid : Nat) (alive : Nat → Bool)
    (sp : Nat → SpaceSt) : BindingSt × (Nat → SpaceSt) × List Nat :=
  let unbound := grabSpace alive b
  if unbound = some newSid then (b, sp, [])
  else
    let step : (Nat → SpaceSt) × List Nat :=
      match unbound with
      | some oldSid =>
        let s := sp oldSid
        let p := scanQueue b.alreadyShotSequence s.shootQueue
        (updateSpace sp oldSid
          { s with shootQueue := p.1, numBindings := s.numBindings - 1 }, p.2)
      | none => (sp, [])
    let ns := step.1 newSid
    let sp2 := updateSpace step.1 newSid { ns with numBindings := ns.numBindings + 1 }
    ({ b with wasRebound := true, boundSpace := some newSid,
              alreadyShotSequence := ns.shootSequence },
     sp2, step.2)

/-- Per-CPU data relevant to activation: the capability flag, the
`pcidBindings` array (as a function from slot index), and the PageContext
fields `_nextStamp` and `_primaryBinding` (an index, or `none`). -/
structure CpuSt where
  havePcids : Bool
  bindings : Nat → BindingSt
  nextStamp : Nat
  primaryBinding : Option Nat

def maxPcidCount : Nat := 8

/-- PageBinding::makePrimary on slot `i`.  The leading assertion demands
PCID support or a zero PCID; when the CR3 write is needed (`_wasRebound` or
not currently primary) the grab of the bound space must succeed.  The
binding clears `_wasRebound`, takes the next LRU stamp and becomes the
context's primary binding. -/
def makePrimary (alive : Nat → Bool) (cpu : CpuSt) (i : Nat) : Option CpuSt :=
  let b := cpu.bindings i
  if ¬cpu.havePcids ∧ b.pcid ≠ 0 then none
  else if (b.wasRebound ∨ cpu.primaryBinding ≠ some i) ∧ grabSpace alive b = none then
    none
  else
    some { cpu with
      bindings := fun j =>
        if j = i then { b with wasRebound := false, primaryStamp := cpu.nextStamp }
        else cpu.bindings j,
      nextStamp := cpu.nextStamp + 1,
      primaryBinding := some i }

/-- The outcome of the selection loop of PageSpace::activate: either keep
the binding at a slot already bound to the space (`makePrimary` only), or
evict the chosen slot (`rebind` then `makePrimary`). -/
inductive ActivateChoice where
  | keep (i : Nat)
  | evict (i : Nat)
deriving DecidableEq, Repr

/-- The `for(int i = 0; i < maxPcidCount; i++)` loop of PageSpace::activate,
with `fuel` iterations left, current index `i` and LRU accumulator `k`:
a slot bound to the space wins immediately; without PCIDs the loop breaks
after the first iteration; otherwise `k` tracks the slot with the smallest
`primaryStamp` seen so far. -/
def activateScan (alive : Nat → Bool) (havePcids : Bool) (bindings : Nat → BindingSt)
    (space : Nat) : Nat → Nat → Nat → ActivateChoice
  | _, k, 0 => ActivateChoice.evict k
  | i, k, Nat.succ fuel =>
    if grabSpace alive (bindings i) = some space then ActivateChoice.keep i
    else if ¬havePcids then ActivateChoice.evict k
    else
      activateScan alive havePcids bindings space (i + 1)
        (if (bindings i).primaryStamp < (bindings k).primaryStamp then i else k)
        fuel

/-- The slot selection performed by PageSpace::activate. -/
def activateChoice (alive : Nat → Bool) (cpu : CpuSt) (space : Nat) : ActivateChoice :=
  activateScan alive cpu.havePcids cpu.bindings space 0 0 maxPcidCount

/-- PageSpace::activate: select a slot, rebind it when it was not already
bound to the space, and make it primary. -/
def activate (alive : Nat → Bool) (sp : Nat → SpaceSt) (cpu : CpuSt) (space : Nat) :
    Option (CpuSt × (Nat → SpaceSt)) :=
  match activateChoice alive cpu space with
  | ActivateChoice.keep i =>
    (makePrimary alive cpu i).map (fun c => (c, sp))
  | ActivateChoice.evict k =>
    (makePrimary alive
      { cpu with bindings := fun j =>
          if j = k then (bindingRebind (cpu.bindings k) space alive sp).1
          else cpu.bindings j } k).map
      (fun c => (c, (bindingRebind (cpu.bindings k) space alive sp).2.1))

/-- Modelled from the spec sentence for C2: the number of bindings in `bs`
whose `alreadyShotSequence` is strictly below `seq` and whose bound space
still upgrades to `sid`. -/
def laggingCount (alive : Nat → Bool) (bs : List BindingSt) (sid seq : Nat) : Nat :=
  (bs.filter (fun b =>
    decide (grabSpace alive b = some sid ∧ b.alreadyShotSequence < seq))).length

/-! ### Walk abbreviations (the frames and leaf computed by the walks) -/

/-- The PDPT frame found by a walk for `pointer` in `m`. -/
def walkPdpt (m : Memory) (root pointer : Nat) : Nat :=
  m root (walkIndex pointer 39) &&& physMask

/-- The PD frame found by a walk. -/
def walkPd (m : Memory) (root pointer : Nat) : Nat :=
  m (walkPdpt m root pointer) (walkIndex pointer 30) &&& physMask

/-- The PT frame found by a walk. -/
def walkPt (m : Memory) (root pointer : Nat) : Nat :=
  m (walkPd m root pointer) (walkIndex pointer 21) &&& physMask

/-- The leaf PTE word found by a walk. -/
def walkLeaf (m : Memory) (root pointer : Nat) : Nat :=
  m (walkPt m root pointer) (walkIndex pointer 12)

/-! ### Concrete states used by witnesses and counterexamples -/

/-- A page-table memory with a fully present chain `0x1000 → 0x2000 → 0x3000
→ 0x4000` for virtual address 0 and nothing else mapped. -/
def chainMem : Memory := fun f i =>
  if f = 0x1000 ∧ i = 0 then 0x2003 else
  if f = 0x2000 ∧ i = 0 then 0x3003 else
  if f = 0x3000 ∧ i = 0 then 0x4003 else 0

/-- The all-zero page-table memory. -/
def zeroMem : Memory := fun _ _ => 0

/-- `chainMem` with a present leaf PTE (word 0x5103) installed for virtual
address 0. -/
def mappedMem : Memory := Memory.write chainMem 0x4000 0 0x5103

/-- An environment in which every space is alive. -/
def aliveAll : Nat → Bool := fun _ => true

/-- A binding bound to space 0, fully caught up (`_alreadyShotSequence = 0`),
as after CPU bring-up plus one rebind to a space that has never issued a
shootdown. -/
def boundBinding : BindingSt := ⟨1, some 0, false, 0, 0⟩

/-- Space 0 with exactly that one binding and no shootdown submitted yet. -/
def freshSpace : SpaceSt := ⟨1, 0, []⟩

/-- The space table after space 0 receives its first submitShootdown (node
identity 42). -/
def afterSubmit : Nat → SpaceSt :=
  fun sid => if sid = 0 then (submitShootdown freshSpace 42).1 else ⟨0, 0, []⟩

/-- A PCID-capable CPU whose eight bindings are all unbound. -/
def idleCpu : CpuSt :=
  { havePcids := true, bindings := fun j => ⟨j + 1, none, false, 0, 0⟩,
    nextStamp := 1, primaryBinding := none }

/-- A PCID-capable CPU whose slot 1 is bound to space 5. -/
def boundCpu : CpuSt :=
  { havePcids := true,
    bindings := fun j => if j = 1 then ⟨2, some 5, false, 3, 0⟩ else ⟨j + 1, none, false, 0, 0⟩,
    nextStamp := 4, primaryBinding := none }

/-- An empty space table. -/
def emptySpaces : Nat → SpaceSt := fun _ => ⟨0, 0, []⟩

/-- The result of a kernel map into an empty tree (all intermediates
freshly allocated at 0x2000, 0x3000, 0x4000). -/
def freshKernelMap : Memory × Nat × Nat × Nat :=
  (kernelMapSingle4k zeroMem 0x1000 0x2000 0x3000 0x4000 0 0x5000 3
    CachingMode.null).get rfl

/-- The result of a user-visible client map into an empty tree. -/
def freshClientMap : Memory × Nat × Nat × Nat :=
  (clientMapSingle4k zeroMem 0x1000 0x2000 0x3000 0x4000 0 0x5000 true 3
    CachingMode.null).get rfl

/-! ### Helper lemmas: single-bit masks and testBit -/

theorem and_pow_eq_zero {v k : Nat} : v &&& 2 ^ k = 0 ↔ v.testBit k = false := by
  rw [Nat.and_two_pow]
  cases h : v.testBit k <;> simp [h]

theorem and_pow_ne_zero {v k : Nat} : v &&& 2 ^ k ≠ 0 ↔ v.testBit k = true := by
  rw [Ne, and_pow_eq_zero]
  simp

theorem user_bit_iff {v : Nat} : v &&& kPageUser = 0 ↔ v.testBit 2 = false := by
  have : kPageUser = 2 ^ 2 := rfl
  rw [this, and_pow_eq_zero]

theorem global_bit_iff {v : Nat} : v &&& kPageGlobal ≠ 0 ↔ v.testBit 8 = true := by
  have : kPageGlobal = 2 ^ 8 := rfl
  rw [this, and_pow_ne_zero]

theorem present_bit_iff {v : Nat} : v &&& kPagePresent ≠ 0 ↔ v.testBit 0 = true := by
  have : kPagePresent = 2 ^ 0 := rfl
  rw [this, and_pow_ne_zero]

theorem aligned_testBit_low {v k : Nat} (h : v % 0x1000 = 0) (hk : k < 12) :
    v.testBit k = false := by
  have h1 : (v % 2 ^ 12).testBit k = v.testBit k := by
    rw [Nat.testBit_mod_two_pow]
    simp [hk]
  have h2 : v % 2 ^ 12 = 0 := h
  rw [← h1, h2, Nat.zero_testBit]

/-! ### Helper lemmas: Memory updates -/

theorem Memory.write_self (m : Memory) (f i v : Nat) : (m.write f i v) f i = v := by
  simp [Memory.write]

theorem Memory.write_ne (m : Memory) {f i f' i' : Nat} (v : Nat)
    (h : ¬(f' = f ∧ i' = i)) : (m.write f i v) f' i' = m f' i' := by
  simp [Memory.write, h]

theorem Memory.zeroFrame_ne (m : Memory) {f f' : Nat} (i' : Nat) (h : f' ≠ f) :
    (m.zeroFrame f) f' i' = m f' i' := by
  simp [Memory.zeroFrame, h]

/-! ### Helper lemmas: inverting the walk blocks -/

theorem testBit_zero_of_lor {a b : Nat} (k : Nat)
    (ha : a.testBit k = false) (hb : b.testBit k = false) :
    (a ||| b).testBit k = false := by
  rw [Nat.testBit_lor, ha, hb]
  rfl

theorem kernelNewTable_present (m : Memory) (frame idx fresh : Nat) :
    kernelNewTable m frame idx fresh frame idx &&& kPagePresent ≠ 0 := by
  rw [present_bit_iff, kernelNewTable, Memory.write_self]
  have h1 : kPagePresent = 2 ^ 0 := rfl
  simp [Nat.testBit_lor, h1, Nat.testBit_two_pow]

theorem clientNewTable_present (m : Memory) (frame idx fresh : Nat) (userPage : Bool) :
    clientNewTable m frame idx fresh userPage frame idx &&& kPagePresent ≠ 0 := by
  rw [present_bit_iff, clientNewTable, Memory.write_self]
  have h1 : kPagePresent = 2 ^ 0 := rfl
  cases userPage <;> simp [Nat.testBit_lor, h1, Nat.testBit_two_pow]

theorem kernelEnsure_inv {m : Memory} {frame idx fresh : Nat} {m1 : Memory} {sub : Nat}
    (h : kernelEnsure m frame idx fresh = some (m1, sub)) :
    m1 frame idx &&& kPageUser = 0 ∧
    m1 frame idx &&& kPagePresent ≠ 0 ∧
    (∀ f' i', f' ≠ sub → ¬(f' = frame ∧ i' = idx) → m1 f' i' = m f' i') := by
  unfold kernelEnsure at h
  split at h <;> split at h <;>
    simp only [Option.some.injEq, Prod.mk.injEq, reduceCtorEq] at h
  · rename_i hp hu
    obtain ⟨h1, h2⟩ := h
    subst h1
    exact ⟨not_not.mp hu, hp, fun f' i' _ _ => rfl⟩
  · rename_i hp hu
    obtain ⟨h1, h2⟩ := h
    subst h1; subst h2
    refine ⟨not_not.mp hu, kernelNewTable_present m frame idx fresh, ?_⟩
    intro f' i' hf hfi
    rw [kernelNewTable, Memory.write_ne _ _ hfi, Memory.zeroFrame_ne _ _ hf]

theorem clientEnsure_inv {m : Memory} {frame idx fresh : Nat} {userPage : Bool}
    {m1 : Memory} {sub : Nat}
    (h : clientEnsure m frame idx fresh userPage = some (m1, sub)) :
    clientUserOk m1 frame idx userPage = true ∧
    m1 frame idx &&& kPagePresent ≠ 0 ∧
    (∀ f' i', f' ≠ sub → ¬(f' = frame ∧ i' = idx) → m1 f' i' = m f' i') := by
  unfold clientEnsure at h
  split at h <;> split at h <;>
    simp only [Option.some.injEq, Prod.mk.injEq, reduceCtorEq] at h
  · rename_i hp hu
    obtain ⟨h1, h2⟩ := h
    subst h1
    exact ⟨hu, hp, fun f' i' _ _ => rfl⟩
  · rename_i hp hu
    obtain ⟨h1, h2⟩ := h
    subst h1; subst h2
    refine ⟨hu, clientNewTable_present m frame idx fresh userPage, ?_⟩
    intro f' i' hf hfi
    rw [clientNewTable, Memory.write_ne _ _ hfi, Memory.zeroFrame_ne _ _ hf]

theorem clientUserOk_elim {m : Memory} {frame idx : Nat} {userPage : Bool}
    (h : clientUserOk m frame idx userPage = true) :
    (userPage = true → (m frame idx).testBit 2 = true) ∧
    (userPage = false → (m frame idx).testBit 2 = false) := by
  unfold clientUserOk at h
  have hus : kPageUser = 2 ^ 2 := rfl
  cases userPage
  · simp only [Bool.false_eq_true, if_false, decide_eq_true_eq] at h
    exact ⟨(fun hc => nomatch hc), fun _ => user_bit_iff.mp h⟩
  · simp only [if_true, decide_eq_true_eq] at h
    refine ⟨fun _ => ?_, fun hc => nomatch hc⟩
    rw [hus] at h
    exact and_pow_ne_zero.mp h

/-! ### Helper lemmas: single bits under or / xor -/

theorem testBit_or_left {a b k : Nat} (h : a.testBit k = true) :
    (a ||| b).testBit k = true := by
  rw [Nat.testBit_lor, h]
  rfl

theorem testBit_or_right {a b k : Nat} (h : b.testBit k = true) :
    (a ||| b).testBit k = true := by
  rw [Nat.testBit_lor, h]
  cases a.testBit k <;> rfl

theorem xor_present_high {v : Nat} (k : Nat) (hk : 1 ≤ k) :
    (v ^^^ kPagePresent).testBit k = v.testBit k := by
  rw [Nat.testBit_xor]
  have h1 : kPagePresent = 2 ^ 0 := rfl
  rw [h1, Nat.testBit_two_pow]
  have h2 : ¬(0 = k) := by omega
  simp [h2]

theorem xor_present_low {v : Nat} (h : v.testBit 0 = true) :
    (v ^^^ kPagePresent).testBit 0 = false := by
  rw [Nat.testBit_xor, h, (by decide : kPagePresent.testBit 0 = true)]
  rfl

/-! ### Helper lemmas: walks with all levels present -/

theorem kernelEnsure_present {m : Memory} {frame idx fresh : Nat} {m1 : Memory} {sub : Nat}
    (h : kernelEnsure m frame idx fresh = some (m1, sub))
    (hp : m frame idx &&& kPagePresent ≠ 0) :
    m1 = m ∧ sub = m frame idx &&& physMask := by
  unfold kernelEnsure at h
  rw [if_pos hp] at h
  split at h
  · exact absurd h (by simp)
  · simp only [Option.some.injEq, Prod.mk.injEq] at h
    exact ⟨h.1.symm, h.2.symm⟩

theorem kernelUnmap_char {m : Memory} {root pointer : Nat}
    (hal : pointer % 0x1000 = 0)
    (h4 : m root (walkIndex pointer 39) &&& kPagePresent ≠ 0)
    (h3 : m (walkPdpt m root pointer) (walkIndex pointer 30) &&& kPagePresent ≠ 0)
    (h2 : m (walkPd m root pointer) (walkIndex pointer 21) &&& kPagePresent ≠ 0)
    (h1 : walkLeaf m root pointer &&& kPagePresent ≠ 0) :
    kernelUnmapSingle4k m root pointer =
      some (m.write (walkPt m root pointer) (walkIndex pointer 12)
              (walkLeaf m root pointer ^^^ kPagePresent),
            (walkLeaf m root pointer ^^^ kPagePresent) &&& physMask) := by
  unfold walkPdpt at h3
  unfold walkPd walkPdpt at h2
  unfold walkLeaf walkPt walkPd walkPdpt at h1 ⊢
  simp only [kernelUnmapSingle4k]
  rw [if_neg (by simp [hal]), if_neg h4, if_neg h3, if_neg h2, if_neg h1]

/-! ### Expected leaf words (spec-side description of the installed PTE) -/

/-- The cache-attribute bits of the spec's encoding table, restricted to the
modes the code accepts (uncached never reaches the leaf write). -/
def cacheBitsSpec (cm : CachingMode) : Nat :=
  match cm with
  | CachingMode.writeThrough => kPagePwt
  | CachingMode.writeCombine => kPagePat ||| kPagePwt
  | _ => 0

/-- The expected leaf word of KernelPageSpace::mapSingle4k. -/
def kernelLeafWord (physical flags : Nat) (cm : CachingMode) : Nat :=
  (if flags &&& page_access.execute ≠ 0 then
    (if flags &&& page_access.write ≠ 0 then
      physical ||| kPagePresent ||| kPageGlobal ||| kPageWrite
     else physical ||| kPagePresent ||| kPageGlobal)
   else
    (if flags &&& page_access.write ≠ 0 then
      physical ||| kPagePresent ||| kPageGlobal ||| kPageWrite
     else physical ||| kPagePresent ||| kPageGlobal) ||| kPageXd) ||| cacheBitsSpec cm

/-- The expected leaf word of ClientPageSpace::mapSingle4k. -/
def clientLeafWord (physical : Nat) (userPage : Bool) (flags : Nat) (cm : CachingMode) :
    Nat :=
  (if flags &&& page_access.execute ≠ 0 then
    (if flags &&& page_access.write ≠ 0 then
      (if userPage then physical ||| kPagePresent ||| kPageUser
       else physical ||| kPagePresent) ||| kPageWrite
     else
      (if userPage then physical ||| kPagePresent ||| kPageUser
       else physical ||| kPagePresent))
   else
    (if flags &&& page_access.write ≠ 0 then
      (if userPage then physical ||| kPagePresent ||| kPageUser
       else physical ||| kPagePresent) ||| kPageWrite
     else
      (if userPage then physical ||| kPagePresent ||| kPageUser
       else physical ||| kPagePresent)) ||| kPageXd) ||| cacheBitsSpec cm

theorem cacheBits_to_spec {cm : CachingMode} {c : Nat} (h : cacheBits cm = some c) :
    cacheBitsSpec cm = c := by
  cases cm <;> simp [cacheBits, cacheBitsSpec] at h ⊢ <;> omega

theorem kernelMap_uncached (m : Memory) (root fA fB fC pointer physical flags : Nat) :
    kernelMapSingle4k m root fA fB fC pointer physical flags CachingMode.uncached
      = none := by
  unfold kernelMapSingle4k
  repeat first | rfl | split

theorem clientMap_uncached (m : Memory) (root fA fB fC pointer physical : Nat)
    (u : Bool) (flags : Nat) :
    clientMapSingle4k m root fA fB fC pointer physical u flags CachingMode.uncached
      = none := by
  unfold clientMapSingle4k
  repeat first | rfl | split

theorem kernelMap_leaf {m : Memory} {root fA fB fC pointer physical flags : Nat}
    {cm : CachingMode} {r : Memory × Nat × Nat × Nat}
    (h : kernelMapSingle4k m root fA fB fC pointer physical flags cm = some r) :
    r.1 r.2.2.2 (walkIndex pointer 12) = kernelLeafWord physical flags cm := by
  unfold kernelMapSingle4k at h
  split at h; · exact absurd h (by simp)
  split at h; · exact absurd h (by simp)
  split at h; · exact absurd h (by simp)
  split at h; · exact absurd h (by simp)
  split at h; · exact absurd h (by simp)
  split at h; · exact absurd h (by simp)
  split at h
  · exact absurd h (by simp)
  · rename_i cbits hcb
    simp only [Option.some.injEq] at h
    subst h
    simp only [Memory.write_self, kernelLeafWord, cacheBits_to_spec hcb]

theorem clientMap_leaf {m : Memory} {root fA fB fC pointer physical : Nat} {u : Bool}
    {flags : Nat} {cm : CachingMode} {r : Memory × Nat × Nat × Nat}
    (h : clientMapSingle4k m root fA fB fC pointer physical u flags cm = some r) :
    r.1 r.2.2.2 (walkIndex pointer 12) = clientLeafWord physical u flags cm := by
  unfold clientMapSingle4k at h
  split at h; · exact absurd h (by simp)
  split at h; · exact absurd h (by simp)
  split at h; · exact absurd h (by simp)
  split at h; · exact absurd h (by simp)
  split at h; · exact absurd h (by simp)
  split at h; · exact absurd h (by simp)
  split at h
  · exact absurd h (by simp)
  · rename_i cbits hcb
    simp only [Option.some.injEq] at h
    subst h
    simp only [Memory.write_self, clientLeafWord, cacheBits_to_spec hcb]

theorem kernelUnmap_inv {m : Memory} {root pointer : Nat} {u : Memory × Nat}
    (h : kernelUnmapSingle4k m root pointer = some u) :
    u = (m.write (walkPt m root pointer) (walkIndex pointer 12)
           (walkLeaf m root pointer ^^^ kPagePresent),
         (walkLeaf m root pointer ^^^ kPagePresent) &&& physMask) ∧
    walkLeaf m root pointer &&& kPagePresent ≠ 0 := by
  unfold walkLeaf walkPt walkPd walkPdpt
  simp only [kernelUnmapSingle4k] at h
  split at h; · exact absurd h (by simp)
  split at h; · exact absurd h (by simp)
  split at h; · exact absurd h (by simp)
  split at h; · exact absurd h (by simp)
  split at h
  · exact absurd h (by simp)
  · rename_i hleaf
    simp only [Option.some.injEq] at h
    exact ⟨h.symm, hleaf⟩

theorem mask_testBit_high {k : Nat} (h1 : 1 ≤ k) (h2 : k < 64) :
    (0xFFFFFFFFFFFFFFFE : Nat).testBit k = true := by
  obtain ⟨j, rfl⟩ : ∃ j, k = j + 1 := ⟨k - 1, by omega⟩
  have hM : (0xFFFFFFFFFFFFFFFE : Nat) = 2 * (2 ^ 63 - 1) := by norm_num
  rw [hM, Nat.testBit_succ]
  have hdiv : 2 * (2 ^ 63 - 1) / 2 = 2 ^ 63 - 1 := by omega
  rw [hdiv, Nat.testBit_two_pow_sub_one]
  simp
  omega

theorem and_mask_bit0 (v : Nat) : (v &&& 0xFFFFFFFFFFFFFFFE).testBit 0 = false := by
  rw [Nat.testBit_land, (by decide : (0xFFFFFFFFFFFFFFFE : Nat).testBit 0 = false)]
  cases v.testBit 0 <;> rfl

theorem and_mask_high {v : Nat} (hv : v < 2 ^ 64) (k : Nat) (hk : 1 ≤ k) :
    (v &&& 0xFFFFFFFFFFFFFFFE).testBit k = v.testBit k := by
  rw [Nat.testBit_land]
  by_cases h64 : k < 64
  · rw [mask_testBit_high hk h64]
    cases v.testBit k <;> rfl
  · have hv' : v.testBit k = false :=
      Nat.testBit_lt_two_pow
        (lt_of_lt_of_le hv (Nat.pow_le_pow_right (by norm_num) (le_of_not_lt h64)))
    rw [hv']
    rfl

theorem clientUnmapStep_char {m : Memory} {root addr : Nat} (mode : PageMode)
    (h4 : m root (walkIndex addr 39) &&& kPagePresent ≠ 0)
    (h3 : m (walkPdpt m root addr) (walkIndex addr 30) &&& kPagePresent ≠ 0)
    (h2 : m (walkPd m root addr) (walkIndex addr 21) &&& kPagePresent ≠ 0)
    (h1 : walkLeaf m root addr &&& kPagePresent ≠ 0) :
    clientUnmapStep m root addr mode =
      some (m.write (walkPt m root addr) (walkIndex addr 12)
              (walkLeaf m root addr &&& 0xFFFFFFFFFFFFFFFE)) := by
  unfold walkPdpt at h3
  unfold walkPd walkPdpt at h2
  unfold walkLeaf walkPt walkPd walkPdpt at h1 ⊢
  simp only [clientUnmapStep]
  rw [if_neg h4, if_neg h3, if_neg h2, if_neg h1]

theorem clientUnmapStep_cells {m : Memory} {root addr : Nat} {mode : PageMode} {m1 : Memory}
    (h : clientUnmapStep m root addr mode = some m1) (f i : Nat) :
    m1 f i = m f i ∨
    (m1 f i = m f i &&& 0xFFFFFFFFFFFFFFFE ∧ m f i &&& kPagePresent ≠ 0) := by
  simp only [clientUnmapStep] at h
  split at h
  · split at h
    · simp only [Option.some.injEq] at h; subst h; exact Or.inl rfl
    · exact absurd h (by simp)
  · split at h
    · split at h
      · simp only [Option.some.injEq] at h; subst h; exact Or.inl rfl
      · exact absurd h (by simp)
    · split at h
      · split at h
        · simp only [Option.some.injEq] at h; subst h; exact Or.inl rfl
        · exact absurd h (by simp)
      · split at h
        · split at h
          · simp only [Option.some.injEq] at h; subst h; exact Or.inl rfl
          · exact absurd h (by simp)
        · rename_i hleaf
          simp only [Option.some.injEq] at h
          subst h
          by_cases hc : f = m (m (m root (walkIndex addr 39) &&& physMask)
              (walkIndex addr 30) &&& physMask) (walkIndex addr 21) &&& physMask ∧
              i = walkIndex addr 12
          · obtain ⟨hf, hi⟩ := hc
            subst hf; subst hi
            rw [Memory.write_self]
            exact Or.inr ⟨rfl, hleaf⟩
          · rw [Memory.write_ne _ _ hc]
            exact Or.inl rfl

theorem clientUnmapPages_frame {root : Nat} {mode : PageMode} :
    ∀ (count : Nat) (m : Memory) (addr : Nat) (m1 : Memory),
    clientUnmapPages m root addr mode count = some m1 →
    (∀ f i, m f i < 2 ^ 64) →
    (∀ f i, m1 f i < 2 ^ 64) ∧
    (∀ f i, (∀ k, 1 ≤ k → (m1 f i).testBit k = (m f i).testBit k) ∧
            ((m1 f i).testBit 0 = true → (m f i).testBit 0 = true)) := by
  intro count
  induction count with
  | zero =>
    intro m addr m1 h hB
    simp only [clientUnmapPages, Option.some.injEq] at h
    subst h
    exact ⟨hB, fun f i => ⟨fun _ _ => rfl, fun hx => hx⟩⟩
  | succ n ih =>
    intro m addr m1 h hB
    simp only [clientUnmapPages] at h
    split at h
    · exact absurd h (by simp)
    · rename_i m2 hstep
      have hcell := fun f i => clientUnmapStep_cells hstep f i
      have hB2 : ∀ f i, m2 f i < 2 ^ 64 := by
        intro f i
        rcases hcell f i with he | ⟨he, _⟩
        · rw [he]; exact hB f i
        · rw [he]; exact lt_of_le_of_lt Nat.and_le_left (hB f i)
      obtain ⟨hB1, hrel⟩ := ih m2 (addr + kPageSize) m1 h hB2
      refine ⟨hB1, fun f i => ⟨?_, ?_⟩⟩
      · intro k hk
        rw [(hrel f i).1 k hk]
        rcases hcell f i with he | ⟨he, _⟩
        · rw [he]
        · rw [he, and_mask_high (hB f i) k hk]
      · intro hx
        have hx2 := (hrel f i).2 hx
        rcases hcell f i with he | ⟨he, hp⟩
        · rw [← he]; exact hx2
        · rw [he, and_mask_bit0] at hx2
          exact absurd hx2 (by simp)

theorem kernelLeafWord_present (physical flags : Nat) (cm : CachingMode) :
    (kernelLeafWord physical flags cm).testBit 0 = true := by
  have hp : kPagePresent.testBit 0 = true := by decide
  unfold kernelLeafWord
  apply testBit_or_left
  split
  · split
    · exact testBit_or_left (testBit_or_left (testBit_or_right hp))
    · exact testBit_or_left (testBit_or_right hp)
  · apply testBit_or_left
    split
    · exact testBit_or_left (testBit_or_left (testBit_or_right hp))
    · exact testBit_or_left (testBit_or_right hp)

theorem kernelMap_noalloc {m : Memory} {root fA fB fC pointer physical flags : Nat}
    {cm : CachingMode} {r : Memory × Nat × Nat × Nat}
    (hmap : kernelMapSingle4k m root fA fB fC pointer physical flags cm = some r)
    (hp4 : m root (walkIndex pointer 39) &&& kPagePresent ≠ 0)
    (hp3 : m (walkPdpt m root pointer) (walkIndex pointer 30) &&& kPagePresent ≠ 0)
    (hp2 : m (walkPd m root pointer) (walkIndex pointer 21) &&& kPagePresent ≠ 0) :
    pointer % 0x1000 = 0 ∧
    r.2.1 = walkPdpt m root pointer ∧
    r.2.2.1 = walkPd m root pointer ∧
    r.2.2.2 = walkPt m root pointer ∧
    (∀ f i, ¬(f = walkPt m root pointer ∧ i = walkIndex pointer 12) → r.1 f i = m f i) := by
  unfold walkPdpt at hp3
  unfold walkPd walkPdpt at hp2
  unfold walkPt walkPd walkPdpt
  unfold kernelMapSingle4k at hmap
  split at hmap; · exact absurd hmap (by simp)
  rename_i hal
  split at hmap; · exact absurd hmap (by simp)
  split at hmap; · exact absurd hmap (by simp)
  rename_i m1 pdpt heq1
  obtain ⟨hm1, hpdpt⟩ := kernelEnsure_present heq1 hp4
  subst hm1; subst hpdpt
  split at hmap; · exact absurd hmap (by simp)
  rename_i m2 pd heq2
  obtain ⟨hm2, hpd⟩ := kernelEnsure_present heq2 hp3
  subst hm2; subst hpd
  split at hmap; · exact absurd hmap (by simp)
  rename_i m3 pt heq3
  obtain ⟨hm3, hpt⟩ := kernelEnsure_present heq3 hp2
  subst hm3; subst hpt
  split at hmap; · exact absurd hmap (by simp)
  split at hmap; · exact absurd hmap (by simp)
  rename_i cbits hcb
  simp only [Option.some.injEq] at hmap
  subst hmap
  refine ⟨not_not.mp hal, rfl, rfl, rfl, ?_⟩
  intro f i hfi
  exact Memory.write_ne _ _ hfi

theorem kernelLeafWord_user (physical flags : Nat) (cm : CachingMode)
    (hal : physical % 0x1000 = 0) :
    (kernelLeafWord physical flags cm).testBit 2 = false := by
  have hphys : physical.testBit 2 = false := aligned_testBit_low hal (by omega)
  have hP : kPagePresent.testBit 2 = false := by decide
  have hG : kPageGlobal.testBit 2 = false := by decide
  have hW : kPageWrite.testBit 2 = false := by decide
  have hX : kPageXd.testBit 2 = false := by decide
  have hC : (cacheBitsSpec cm).testBit 2 = false := by cases cm <;> decide
  unfold kernelLeafWord
  refine testBit_zero_of_lor _ ?_ hC
  split
  · split
    · exact testBit_zero_of_lor _
        (testBit_zero_of_lor _ (testBit_zero_of_lor _ hphys hP) hG) hW
    · exact testBit_zero_of_lor _ (testBit_zero_of_lor _ hphys hP) hG
  · refine testBit_zero_of_lor _ ?_ hX
    split
    · exact testBit_zero_of_lor _
        (testBit_zero_of_lor _ (testBit_zero_of_lor _ hphys hP) hG) hW
    · exact testBit_zero_of_lor _ (testBit_zero_of_lor _ hphys hP) hG

theorem kernelLeafWord_global (physical flags : Nat) (cm : CachingMode) :
    (kernelLeafWord physical flags cm).testBit 8 = true := by
  have hg : kPageGlobal.testBit 8 = true := by decide
  unfold kernelLeafWord
  apply testBit_or_left
  split
  · split
    · exact testBit_or_left (testBit_or_right hg)
    · exact testBit_or_right hg
  · apply testBit_or_left
    split
    · exact testBit_or_left (testBit_or_right hg)
    · exact testBit_or_right hg

theorem clientLeafWord_user (physical flags : Nat) (cm : CachingMode) :
    (clientLeafWord physical true flags cm).testBit 2 = true := by
  have hu : kPageUser.testBit 2 = true := by decide
  unfold clientLeafWord
  simp only [if_true]
  apply testBit_or_left
  split
  · split
    · exact testBit_or_left (testBit_or_right hu)
    · exact testBit_or_right hu
  · apply testBit_or_left
    split
    · exact testBit_or_left (testBit_or_right hu)
    · exact testBit_or_right hu

theorem kernelMap_stages {m : Memory} {root fA fB fC pointer physical flags : Nat}
    {cm : CachingMode} {r : Memory × Nat × Nat × Nat}
    (h : kernelMapSingle4k m root fA fB fC pointer physical flags cm = some r) :
    ∃ m1 m2 m3,
      kernelEnsure m root (walkIndex pointer 39) fA = some (m1, r.2.1) ∧
      kernelEnsure m1 r.2.1 (walkIndex pointer 30) fB = some (m2, r.2.2.1) ∧
      kernelEnsure m2 r.2.2.1 (walkIndex pointer 21) fC = some (m3, r.2.2.2) ∧
      physical % 0x1000 = 0 ∧
      r.1 = m3.write r.2.2.2 (walkIndex pointer 12) (kernelLeafWord physical flags cm) := by
  unfold kernelMapSingle4k at h
  split at h; · exact absurd h (by simp)
  split at h; · exact absurd h (by simp)
  rename_i halp
  split at h; · exact absurd h (by simp)
  rename_i m1 pdpt heq1
  split at h; · exact absurd h (by simp)
  rename_i m2 pd heq2
  split at h; · exact absurd h (by simp)
  rename_i m3 pt heq3
  split at h; · exact absurd h (by simp)
  split at h; · exact absurd h (by simp)
  rename_i cbits hcb
  simp only [Option.some.injEq] at h
  subst h
  refine ⟨m1, m2, m3, heq1, heq2, heq3, not_not.mp halp, ?_⟩
  simp only [kernelLeafWord, cacheBits_to_spec hcb]

theorem clientMap_stages {m : Memory} {root fA fB fC pointer physical : Nat} {u : Bool}
    {flags : Nat} {cm : CachingMode} {r : Memory × Nat × Nat × Nat}
    (h : clientMapSingle4k m root fA fB fC pointer physical u flags cm = some r) :
    ∃ m1 m2 m3,
      clientEnsure m root (walkIndex pointer 39) fA u = some (m1, r.2.1) ∧
      clientEnsure m1 r.2.1 (walkIndex pointer 30) fB u = some (m2, r.2.2.1) ∧
      clientEnsure m2 r.2.2.1 (walkIndex pointer 21) fC u = some (m3, r.2.2.2) ∧
      physical % 0x1000 = 0 ∧
      r.1 = m3.write r.2.2.2 (walkIndex pointer 12) (clientLeafWord physical u flags cm) := by
  unfold clientMapSingle4k at h
  split at h; · exact absurd h (by simp)
  split at h; · exact absurd h (by simp)
  rename_i halp
  split at h; · exact absurd h (by simp)
  rename_i m1 pdpt heq1
  split at h; · exact absurd h (by simp)
  rename_i m2 pd heq2
  split at h; · exact absurd h (by simp)
  rename_i m3 pt heq3
  split at h; · exact absurd h (by simp)
  split at h; · exact absurd h (by simp)
  rename_i cbits hcb
  simp only [Option.some.injEq] at h
  subst h
  refine ⟨m1, m2, m3, heq1, heq2, heq3, not_not.mp halp, ?_⟩
  simp only [clientLeafWord, cacheBits_to_spec hcb]

/-! ### Helper lemmas: the activate selection loop -/

theorem scan_keep_sound {alive : Nat → Bool} {hp : Bool} {bindings : Nat → BindingSt}
    {space : Nat} :
    ∀ (fuel i k j : Nat),
      activateScan alive hp bindings space i k fuel = ActivateChoice.keep j →
      grabSpace alive (bindings j) = some space ∧ i ≤ j ∧ j < i + fuel := by
  intro fuel
  induction fuel with
  | zero => intro i k j h; exact absurd h (by simp [activateScan])
  | succ n ih =>
    intro i k j h
    simp only [activateScan] at h
    split at h
    · rename_i hPi
      simp only [ActivateChoice.keep.injEq] at h
      subst h
      exact ⟨hPi, Nat.le_refl i, by omega⟩
    · split at h
      · exact absurd h (by simp)
      · obtain ⟨hPj, hij, hlt⟩ := ih (i + 1) _ j h
        exact ⟨hPj, by omega, by omega⟩

theorem scan_keep_complete {alive : Nat → Bool} {bindings : Nat → BindingSt}
    {space : Nat} :
    ∀ (fuel i k : Nat),
      (∃ j, i ≤ j ∧ j < i + fuel ∧ grabSpace alive (bindings j) = some space) →
      ∃ j, activateScan alive true bindings space i k fuel = ActivateChoice.keep j := by
  intro fuel
  induction fuel with
  | zero => intro i k ⟨j, h1, h2, _⟩; omega
  | succ n ih =>
    intro i k ⟨j, h1, h2, hPj⟩
    simp only [activateScan]
    split
    · exact ⟨i, rfl⟩
    · rename_i hPi
      rw [if_neg (by simp)]
      have hji : j ≠ i := fun hc => hPi (hc ▸ hPj)
      exact ih (i + 1) _ ⟨j, by omega, by omega, hPj⟩

theorem scan_nopcid {alive : Nat → Bool} {bindings : Nat → BindingSt} {space : Nat}
    (i k fuel : Nat) :
    activateScan alive false bindings space i k (fuel + 1) =
      (if grabSpace alive (bindings i) = some space then ActivateChoice.keep i
       else ActivateChoice.evict k) := by
  simp only [activateScan]
  split <;> simp

theorem scan_evict_min {alive : Nat → Bool} {bindings : Nat → BindingSt} {space : Nat} :
    ∀ (fuel i k : Nat),
      (∀ j, i ≤ j → j < i + fuel → grabSpace alive (bindings j) ≠ some space) →
      ∃ k', activateScan alive true bindings space i k fuel = ActivateChoice.evict k' ∧
        (k' = k ∨ (i ≤ k' ∧ k' < i + fuel)) ∧
        (bindings k').primaryStamp ≤ (bindings k).primaryStamp ∧
        (∀ j, i ≤ j → j < i + fuel →
          (bindings k').primaryStamp ≤ (bindings j).primaryStamp) := by
  intro fuel
  induction fuel with
  | zero =>
    intro i k _
    exact ⟨k, by simp [activateScan], Or.inl rfl, Nat.le_refl _, fun j h1 h2 => by omega⟩
  | succ n ih =>
    intro i k hnone
    simp only [activateScan]
    rw [if_neg (hnone i (Nat.le_refl i) (by omega))]
    rw [if_neg (by simp)]
    obtain ⟨k', hscan, hpos, hlek, hmin⟩ :=
      ih (i + 1) (if (bindings i).primaryStamp < (bindings k).primaryStamp then i else k)
        (fun j h1 h2 => hnone j (by omega) (by omega))
    refine ⟨k', hscan, ?_, ?_, ?_⟩
    · rcases hpos with hk | ⟨h1, h2⟩
      · subst hk
        split
        · exact Or.inr ⟨Nat.le_refl i, by omega⟩
        · exact Or.inl rfl
      · exact Or.inr ⟨by omega, by omega⟩
    · refine le_trans hlek ?_
      split
      · rename_i hlt; exact le_of_lt hlt
      · exact Nat.le_refl _
    · intro j h1 h2
      by_cases hj : j = i
      · subst hj
        refine le_trans hlek ?_
        split
        · exact Nat.le_refl _
        · rename_i hnlt; omega
      · exact hmin j (by omega) (by omega)

theorem scan_evict_lt {alive : Nat → Bool} {hp : Bool} {bindings : Nat → BindingSt}
    {space : Nat} :
    ∀ (fuel i k bound k' : Nat), k < bound → i + fuel ≤ bound →
      activateScan alive hp bindings space i k fuel = ActivateChoice.evict k' →
      k' < bound := by
  intro fuel
  induction fuel with
  | zero =>
    intro i k bound k' hk _ h
    simp only [activateScan, ActivateChoice.evict.injEq] at h
    omega
  | succ n ih =>
    intro i k bound k' hk hb h
    simp only [activateScan] at h
    split at h
    · exact absurd h (by simp)
    · split at h
      · simp only [ActivateChoice.evict.injEq] at h; omega
      · refine ih (i + 1) _ bound k' ?_ (by omega) h
        split
        · omega
        · omega

theorem grabSpace_some {alive : Nat → Bool} {b : BindingSt} {s : Nat}
    (h : grabSpace alive b = some s) : b.boundSpace = some s ∧ alive s = true := by
  unfold grabSpace at h
  split at h
  · rename_i sid hsid
    split at h
    · simp only [Option.some.injEq] at h
      subst h
      exact ⟨hsid, by assumption⟩
    · exact absurd h (by simp)
  · exact absurd h (by simp)

theorem rebind_boundSpace (b : BindingSt) (newSid : Nat) (alive : Nat → Bool)
    (sp : Nat → SpaceSt) :
    (bindingRebind b newSid alive sp).1.boundSpace = some newSid := by
  simp only [bindingRebind]
  split
  · rename_i hu
    exact (grabSpace_some hu).1
  · rfl

theorem makePrimary_some {alive : Nat → Bool} {cpu : CpuSt} {i : Nat} {c : CpuSt}
    (h : makePrimary alive cpu i = some c) :
    c = { cpu with
      bindings := fun j => if j = i then
          { cpu.bindings i with wasRebound := false, primaryStamp := cpu.nextStamp }
        else cpu.bindings j,
      nextStamp := cpu.nextStamp + 1,
      primaryBinding := some i } := by
  simp only [makePrimary] at h
  split at h; · exact absurd h (by simp)
  split at h; · exact absurd h (by simp)
  simp only [Option.some.injEq] at h
  exact h.symm

/-! ### Claim theorems -/

/-- C8: on a space with `numBindings == 0`, submitShootdown leaves the space
untouched (no sequence number is assigned, nothing is enqueued), sends no
IPI, and fires the node's completion callback synchronously, after the
space's lock is released and before the call returns. -/
theorem claim_C8 (s : SpaceSt) (nid : Nat) (h : s.numBindings = 0) :
    submitShootdown s nid =
      (s, [SubmitEvent.lockAcquired, SubmitEvent.lockReleased, SubmitEvent.completed nid]) := by
  unfold submitShootdown
  rw [if_neg (by simp [h])]

theorem claim_C8_witness :
    submitShootdown ⟨0, 3, []⟩ 9 =
      (⟨0, 3, []⟩,
       [SubmitEvent.lockAcquired, SubmitEvent.lockReleased, SubmitEvent.completed 9]) :=
  claim_C8 ⟨0, 3, []⟩ 9 rfl

/-- C5, counterexample to the claim as stated: `isMapped` does assert on a
misaligned pointer (`assert(!(pointer & (kPageSize - 1)))`), so it is not
assertion-free for arbitrary inputs. -/
theorem claim_C5_counterexample : isMapped chainMem 0x1000 1 = none := rfl

/-- C5 (amended): for every page-aligned pointer, `isMapped` runs without
assertion failure and returns exactly whether a present leaf PTE exists for
that pointer. -/
theorem claim_C5 (m : Memory) (root pointer : Nat)
    (h : pointer &&& (kPageSize - 1) = 0) :
    isMapped m root pointer = some (leafPresentSpec m root pointer) := by
  simp only [isMapped, leafPresentSpec]
  rw [if_neg (by simp [h])]
  by_cases h4 : m root (walkIndex pointer 39) &&& kPagePresent = 0
  · simp [h4]
  · by_cases h3 : m (m root (walkIndex pointer 39) &&& physMask)
        (walkIndex pointer 30) &&& kPagePresent = 0
    · simp [h4, h3]
    · by_cases h2 : m (m (m root (walkIndex pointer 39) &&& physMask)
          (walkIndex pointer 30) &&& physMask) (walkIndex pointer 21) &&& kPagePresent = 0
      · simp [h4, h3, h2]
      · simp [h4, h3, h2]

theorem claim_C5_witness :
    (0 &&& (kPageSize - 1) = 0) ∧
    isMapped chainMem 0x1000 0 = some (leafPresentSpec chainMem 0x1000 0) :=
  ⟨by decide, claim_C5 chainMem 0x1000 0 (by decide)⟩

/-- C1: the code evaluated at a concrete state refutes the claim.  One
binding is bound to space 0 and fully caught up; space 0 submits its first
ShootNode (id 42).  The node is enqueued with `sequence = 0` and
`bindingsToShoot = 1`, yet a subsequent PageBinding::shootdown scan by that
binding decrements nothing, fires no callback and leaves the node queued,
and a rebind away from the space likewise drains nothing: the completion
callback never fires and the queue never empties. -/
theorem claim_C1 :
    grabSpace aliveAll boundBinding = some 0 ∧
    (submitShootdown freshSpace 42).1 =
      { numBindings := 1, shootSequence := 1,
        shootQueue := [{ id := 42, sequence := 0, bindingsToShoot := 1 }] } ∧
    (bindingShootdown boundBinding aliveAll afterSubmit).2.1 0 =
      { numBindings := 1, shootSequence := 1,
        shootQueue := [{ id := 42, sequence := 0, bindingsToShoot := 1 }] } ∧
    (bindingShootdown boundBinding aliveAll afterSubmit).2.2 = [] ∧
    (bindingRebind boundBinding 7 aliveAll afterSubmit).2.1 0 =
      { numBindings := 0, shootSequence := 1,
        shootQueue := [{ id := 42, sequence := 0, bindingsToShoot := 1 }] } ∧
    (bindingRebind boundBinding 7 aliveAll afterSubmit).2.2 = [] := by
  refine ⟨?_, ?_, ?_, ?_, ?_, ?_⟩ <;> decide

/-- C2: the code evaluated at a concrete state refutes the invariant.
Immediately after the first submitShootdown on space 0, the queued node has
`bindingsToShoot = 1`, but the number of bindings with
`alreadyShotSequence < sequence` (= 0) that are still bound to the space is
0: the caught-up binding has `alreadyShotSequence = 0`, not `< 0`, even
though it was counted into `bindingsToShoot`. -/
theorem claim_C2 :
    (submitShootdown freshSpace 42).1.shootQueue =
      [{ id := 42, sequence := 0, bindingsToShoot := 1 }] ∧
    grabSpace aliveAll boundBinding = some 0 ∧
    laggingCount aliveAll [boundBinding] 0 0 = 0 := by
  refine ⟨?_, ?_, ?_⟩ <;> decide

/-- C3, counterexample to the claim as stated: on a state where every other
caching mode maps fine, `CachingMode::uncached` trips
`assert(caching_mode == CachingMode::null || caching_mode == CachingMode::writeBack)`
in both mapSingle4k functions; no PCD leaf is ever produced. -/
theorem claim_C3_counterexample :
    kernelMapSingle4k chainMem 0x1000 0xA000 0xB000 0xC000 0 0x5000 3
      CachingMode.uncached = none ∧
    clientMapSingle4k chainMem 0x1000 0xA000 0xB000 0xC000 0 0x5000 false 3
      CachingMode.uncached = none ∧
    (kernelMapSingle4k chainMem 0x1000 0xA000 0xB000 0xC000 0 0x5000 3
      CachingMode.writeBack).isSome = true ∧
    (clientMapSingle4k chainMem 0x1000 0xA000 0xB000 0xC000 0 0x5000 false 3
      CachingMode.writeBack).isSome = true := by
  refine ⟨rfl, rfl, rfl, rfl⟩

/-- C3 (amended): the leaf PTE installed by a successful mapSingle4k call
(kernel or client) encodes the caching mode as: writeBack or null set no
cache bits, writeThrough sets PWT only, writeCombine sets PAT and PWT
(see `cacheBitsSpec` inside the expected leaf words); a call with caching
mode uncached never succeeds — it trips the caching-mode assertion — and
no PCD leaf is ever produced. -/
theorem claim_C3 (m : Memory) (root fA fB fC pointer physical flags : Nat)
    (u : Bool) (cm : CachingMode) :
    kernelMapSingle4k m root fA fB fC pointer physical flags CachingMode.uncached
      = none ∧
    clientMapSingle4k m root fA fB fC pointer physical u flags CachingMode.uncached
      = none ∧
    (∀ r, kernelMapSingle4k m root fA fB fC pointer physical flags cm = some r →
      r.1 r.2.2.2 (walkIndex pointer 12) = kernelLeafWord physical flags cm) ∧
    (∀ r, clientMapSingle4k m root fA fB fC pointer physical u flags cm = some r →
      r.1 r.2.2.2 (walkIndex pointer 12) = clientLeafWord physical u flags cm) :=
  ⟨kernelMap_uncached m root fA fB fC pointer physical flags,
   clientMap_uncached m root fA fB fC pointer physical u flags,
   fun _ h => kernelMap_leaf h,
   fun _ h => clientMap_leaf h⟩

theorem claim_C3_witness :
    (Memory.write chainMem 0x4000 0 0x510B) 0x4000 (walkIndex 0 12)
        = kernelLeafWord 0x5000 3 CachingMode.writeThrough ∧
    (Memory.write chainMem 0x4000 0 0x500B) 0x4000 (walkIndex 0 12)
        = clientLeafWord 0x5000 false 3 CachingMode.writeThrough :=
  ⟨(claim_C3 chainMem 0x1000 0xA000 0xB000 0xC000 0 0x5000 3 false
      CachingMode.writeThrough).2.2.1
      (Memory.write chainMem 0x4000 0 0x510B, 0x2000, 0x3000, 0x4000) rfl,
   (claim_C3 chainMem 0x1000 0xA000 0xB000 0xC000 0 0x5000 3 false
      CachingMode.writeThrough).2.2.2
      (Memory.write chainMem 0x4000 0 0x500B, 0x2000, 0x3000, 0x4000) rfl⟩

/-- C4, counterexample to the claim as stated: with a present walk
`0x1000 → 0x2000 → 0x3000 → 0x4000` for virtual address 0 and leaf word 0,
mapping physical 0x5000 (write+execute, default caching) and then unmapping
leaves the leaf PTE word 0x5102 (the map's attribute bits with Present
cleared), not its pre-map value 0. -/
theorem claim_C4_counterexample :
    ((kernelMapSingle4k chainMem 0x1000 0xA000 0xB000 0xC000 0 0x5000 3
        CachingMode.null).bind
      (fun r => (kernelUnmapSingle4k r.1 0x1000 0).map (fun u => u.1 0x4000 0)))
      = some 0x5102 ∧
    chainMem 0x4000 0 = 0 := ⟨rfl, rfl⟩

/-- C4 (amended): when the three intermediate levels for `pointer` are
already present before the map (so the map allocates nothing) and the four
walked frames are distinct, mapSingle4k followed by unmapSingle4k restores
every PTE word except the leaf PTE for `pointer`, which ends with the
Present bit clear and otherwise keeps exactly the attribute and address
bits the map installed. -/
theorem claim_C4 (m : Memory) (root fA fB fC pointer physical flags : Nat)
    (cm : CachingMode) (r : Memory × Nat × Nat × Nat)
    (hmap : kernelMapSingle4k m root fA fB fC pointer physical flags cm = some r)
    (hp4 : m root (walkIndex pointer 39) &&& kPagePresent ≠ 0)
    (hp3 : m (walkPdpt m root pointer) (walkIndex pointer 30) &&& kPagePresent ≠ 0)
    (hp2 : m (walkPd m root pointer) (walkIndex pointer 21) &&& kPagePresent ≠ 0)
    (hne4 : r.2.2.2 ≠ root) (hne3 : r.2.2.2 ≠ r.2.1) (hne2 : r.2.2.2 ≠ r.2.2.1) :
    ∃ u, kernelUnmapSingle4k r.1 root pointer = some u ∧
      (∀ f i, ¬(f = r.2.2.2 ∧ i = walkIndex pointer 12) → u.1 f i = m f i) ∧
      (u.1 r.2.2.2 (walkIndex pointer 12)).testBit 0 = false ∧
      (∀ k, 1 ≤ k → (u.1 r.2.2.2 (walkIndex pointer 12)).testBit k
          = (r.1 r.2.2.2 (walkIndex pointer 12)).testBit k) := by
  obtain ⟨hal, hpdpt, hpd, hpt, hpres⟩ := kernelMap_noalloc hmap hp4 hp3 hp2
  have hWne4 : walkPt m root pointer ≠ root := hpt ▸ hne4
  have hWne3 : walkPt m root pointer ≠ walkPdpt m root pointer := by
    rw [← hpt, ← hpdpt]; exact hne3
  have hWne2 : walkPt m root pointer ≠ walkPd m root pointer := by
    rw [← hpt, ← hpd]; exact hne2
  have e4 : r.1 root (walkIndex pointer 39) = m root (walkIndex pointer 39) :=
    hpres root _ (fun hc => hWne4 hc.1.symm)
  have ePdpt : walkPdpt r.1 root pointer = walkPdpt m root pointer := by
    unfold walkPdpt; rw [e4]
  have e3 : r.1 (walkPdpt m root pointer) (walkIndex pointer 30)
      = m (walkPdpt m root pointer) (walkIndex pointer 30) :=
    hpres _ _ (fun hc => hWne3 hc.1.symm)
  have ePd : walkPd r.1 root pointer = walkPd m root pointer := by
    unfold walkPd; rw [ePdpt, e3]
  have e2 : r.1 (walkPd m root pointer) (walkIndex pointer 21)
      = m (walkPd m root pointer) (walkIndex pointer 21) :=
    hpres _ _ (fun hc => hWne2 hc.1.symm)
  have ePt : walkPt r.1 root pointer = walkPt m root pointer := by
    unfold walkPt; rw [ePd, e2]
  have eFrame : walkPt r.1 root pointer = r.2.2.2 := by rw [ePt, ← hpt]
  have eLeaf : walkLeaf r.1 root pointer = r.1 r.2.2.2 (walkIndex pointer 12) := by
    unfold walkLeaf; rw [eFrame]
  have hleafval := kernelMap_leaf hmap
  have hbit0 : (r.1 r.2.2.2 (walkIndex pointer 12)).testBit 0 = true := by
    rw [hleafval]; exact kernelLeafWord_present physical flags cm
  have hchar := @kernelUnmap_char r.1 root pointer
    hal
    (by rw [e4]; exact hp4)
    (by rw [ePdpt, e3]; exact hp3)
    (by rw [ePd, e2]; exact hp2)
    (by rw [present_bit_iff, eLeaf]; exact hbit0)
  rw [eFrame] at hchar
  refine ⟨_, hchar, ?_, ?_, ?_⟩
  · intro f i hfi
    dsimp only
    rw [Memory.write_ne _ _ hfi]
    exact hpres f i (fun hc => hfi ⟨hpt ▸ hc.1, hc.2⟩)
  · dsimp only
    rw [Memory.write_self, eLeaf]
    exact xor_present_low hbit0
  · intro k hk
    dsimp only
    rw [Memory.write_self, eLeaf]
    exact xor_present_high k hk

theorem claim_C4_witness :
    ((Memory.write chainMem 0x4000 0 0x5103) 0x4000 0 &&& kPagePresent ≠ 0) ∧
    ∃ u, kernelUnmapSingle4k (Memory.write chainMem 0x4000 0 0x5103) 0x1000 0 = some u ∧
      (∀ f i, ¬(f = 0x4000 ∧ i = walkIndex 0 12) → u.1 f i = chainMem f i) ∧
      (u.1 0x4000 (walkIndex 0 12)).testBit 0 = false ∧
      (∀ k, 1 ≤ k → (u.1 0x4000 (walkIndex 0 12)).testBit k
          = ((Memory.write chainMem 0x4000 0 0x5103) 0x4000 (walkIndex 0 12)).testBit k) :=
  ⟨by decide,
   claim_C4 chainMem 0x1000 0xA000 0xB000 0xC000 0 0x5000 3 CachingMode.null
     (Memory.write chainMem 0x4000 0 0x5103, 0x2000, 0x3000, 0x4000)
     rfl (by decide) (by decide) (by decide) (by decide) (by decide) (by decide)⟩

/-- C9: unmapping clears only the Present bit of the walked leaf PTE.
Part one: KernelPageSpace::unmapSingle4k changes no PTE word other than the
leaf cell; the leaf was present before and afterwards has Present clear with
every other bit (physical field and attributes) unchanged.  Part two: one
iteration of ClientPageSpace::unmapRange on a page whose walk is fully
present behaves the same (the leaf word is 64-bit, hence the bound).  Part
three: over a whole unmapRange call, every PTE word keeps all bits above
Present, and Present is never set by the call. -/
theorem claim_C9 :
    (∀ (m : Memory) (root pointer : Nat) (u : Memory × Nat),
      kernelUnmapSingle4k m root pointer = some u →
      (∀ f i, ¬(f = walkPt m root pointer ∧ i = walkIndex pointer 12) →
        u.1 f i = m f i) ∧
      (walkLeaf m root pointer).testBit 0 = true ∧
      (u.1 (walkPt m root pointer) (walkIndex pointer 12)).testBit 0 = false ∧
      (∀ k, 1 ≤ k → (u.1 (walkPt m root pointer) (walkIndex pointer 12)).testBit k
          = (walkLeaf m root pointer).testBit k)) ∧
    (∀ (m : Memory) (root addr : Nat) (mode : PageMode),
      m root (walkIndex addr 39) &&& kPagePresent ≠ 0 →
      m (walkPdpt m root addr) (walkIndex addr 30) &&& kPagePresent ≠ 0 →
      m (walkPd m root addr) (walkIndex addr 21) &&& kPagePresent ≠ 0 →
      walkLeaf m root addr &&& kPagePresent ≠ 0 →
      walkLeaf m root addr < 2 ^ 64 →
      ∃ m1, clientUnmapStep m root addr mode = some m1 ∧
        (∀ f i, ¬(f = walkPt m root addr ∧ i = walkIndex addr 12) → m1 f i = m f i) ∧
        (m1 (walkPt m root addr) (walkIndex addr 12)).testBit 0 = false ∧
        (∀ k, 1 ≤ k → (m1 (walkPt m root addr) (walkIndex addr 12)).testBit k
            = (walkLeaf m root addr).testBit k)) ∧
    (∀ (m : Memory) (root pointer size : Nat) (mode : PageMode) (m1 : Memory),
      clientUnmapRange m root pointer size mode = some m1 →
      (∀ f i, m f i < 2 ^ 64) →
      ∀ f i, (∀ k, 1 ≤ k → (m1 f i).testBit k = (m f i).testBit k) ∧
             ((m1 f i).testBit 0 = true → (m f i).testBit 0 = true)) := by
  refine ⟨?_, ?_, ?_⟩
  · intro m root pointer u h
    obtain ⟨hu, hleaf⟩ := kernelUnmap_inv h
    subst hu
    have hbit0 : (walkLeaf m root pointer).testBit 0 = true := present_bit_iff.mp hleaf
    refine ⟨?_, hbit0, ?_, ?_⟩
    · intro f i hfi
      dsimp only
      exact Memory.write_ne _ _ hfi
    · dsimp only
      rw [Memory.write_self]
      exact xor_present_low hbit0
    · intro k hk
      dsimp only
      rw [Memory.write_self]
      exact xor_present_high k hk
  · intro m root addr mode h4 h3 h2 h1 hlt
    refine ⟨_, clientUnmapStep_char mode h4 h3 h2 h1, ?_, ?_, ?_⟩
    · intro f i hfi
      exact Memory.write_ne _ _ hfi
    · rw [Memory.write_self]
      exact and_mask_bit0 _
    · intro k hk
      rw [Memory.write_self]
      exact and_mask_high hlt k hk
  · intro m root pointer size mode m1 h hB
    unfold clientUnmapRange at h
    split at h; · exact absurd h (by simp)
    split at h; · exact absurd h (by simp)
    exact (clientUnmapPages_frame (size / kPageSize) m pointer m1 h hB).2

theorem claim_C9_witness :
    ((Memory.write mappedMem 0x4000 0 0x5102, (0x5000 : Nat)).1
        (walkPt mappedMem 0x1000 0) (walkIndex 0 12)).testBit 0 = false ∧
    (∃ m1, clientUnmapStep mappedMem 0x1000 0 PageMode.normal = some m1 ∧
      (∀ f i, ¬(f = walkPt mappedMem 0x1000 0 ∧ i = walkIndex 0 12) →
        m1 f i = mappedMem f i) ∧
      (m1 (walkPt mappedMem 0x1000 0) (walkIndex 0 12)).testBit 0 = false ∧
      (∀ k, 1 ≤ k → (m1 (walkPt mappedMem 0x1000 0) (walkIndex 0 12)).testBit k
          = (walkLeaf mappedMem 0x1000 0).testBit k)) ∧
    (∀ f i, (∀ k, 1 ≤ k →
        ((Memory.write mappedMem 0x4000 0 0x5102) f i).testBit k
          = (mappedMem f i).testBit k) ∧
      (((Memory.write mappedMem 0x4000 0 0x5102) f i).testBit 0 = true →
        (mappedMem f i).testBit 0 = true)) := by
  have hB : ∀ f i, mappedMem f i < 2 ^ 64 := by
    intro f i
    simp only [mappedMem, chainMem, Memory.write]
    repeat' split <;> norm_num
  refine ⟨?_, ?_, ?_⟩
  · exact (claim_C9.1 mappedMem 0x1000 0
      (Memory.write mappedMem 0x4000 0 0x5102, 0x5000) rfl).2.2.1
  · exact claim_C9.2.1 mappedMem 0x1000 0 PageMode.normal
      (by decide) (by decide) (by decide) (by decide) (by decide)
  · exact claim_C9.2.2 mappedMem 0x1000 0 0x1000 PageMode.normal
      (Memory.write mappedMem 0x4000 0 0x5102) rfl hB

/-- C6: with the four walked page-table frames distinct, every leaf PTE
installed by KernelPageSpace::mapSingle4k has the Global bit set and the
User bit clear, and every intermediate entry it creates or traverses has
the User bit clear; every mapping installed by ClientPageSpace::mapSingle4k
with userVisible true has the User bit set on the leaf and on every
intermediate entry along its walk path. -/
theorem claim_C6 :
    (∀ (m : Memory) (root fA fB fC pointer physical flags : Nat) (cm : CachingMode)
        (r : Memory × Nat × Nat × Nat),
      kernelMapSingle4k m root fA fB fC pointer physical flags cm = some r →
      r.2.1 ≠ root → r.2.2.1 ≠ root → r.2.2.1 ≠ r.2.1 →
      r.2.2.2 ≠ root → r.2.2.2 ≠ r.2.1 → r.2.2.2 ≠ r.2.2.1 →
      (r.1 root (walkIndex pointer 39)).testBit 2 = false ∧
      (r.1 r.2.1 (walkIndex pointer 30)).testBit 2 = false ∧
      (r.1 r.2.2.1 (walkIndex pointer 21)).testBit 2 = false ∧
      (r.1 r.2.2.2 (walkIndex pointer 12)).testBit 2 = false ∧
      (r.1 r.2.2.2 (walkIndex pointer 12)).testBit 8 = true) ∧
    (∀ (m : Memory) (root fA fB fC pointer physical flags : Nat) (cm : CachingMode)
        (r : Memory × Nat × Nat × Nat),
      clientMapSingle4k m root fA fB fC pointer physical true flags cm = some r →
      r.2.1 ≠ root → r.2.2.1 ≠ root → r.2.2.1 ≠ r.2.1 →
      r.2.2.2 ≠ root → r.2.2.2 ≠ r.2.1 → r.2.2.2 ≠ r.2.2.1 →
      (r.1 root (walkIndex pointer 39)).testBit 2 = true ∧
      (r.1 r.2.1 (walkIndex pointer 30)).testBit 2 = true ∧
      (r.1 r.2.2.1 (walkIndex pointer 21)).testBit 2 = true ∧
      (r.1 r.2.2.2 (walkIndex pointer 12)).testBit 2 = true) := by
  constructor
  · intro m root fA fB fC pointer physical flags cm r hmap d41 d31 d32 d21 d22 d23
    obtain ⟨m1, m2, m3, h1, h2, h3, halp, hr1⟩ := kernelMap_stages hmap
    obtain ⟨hu4, _, pres1⟩ := kernelEnsure_inv h1
    obtain ⟨hu3, _, pres2⟩ := kernelEnsure_inv h2
    obtain ⟨hu2, _, pres3⟩ := kernelEnsure_inv h3
    rw [hr1]
    refine ⟨?_, ?_, ?_, ?_, ?_⟩
    · rw [Memory.write_ne _ _ (fun hc => d21 hc.1.symm),
          pres3 _ _ (fun hc => d21 hc.symm) (fun hc => d31 hc.1.symm),
          pres2 _ _ (fun hc => d31 hc.symm) (fun hc => d41 hc.1.symm)]
      exact user_bit_iff.mp hu4
    · rw [Memory.write_ne _ _ (fun hc => d22 hc.1.symm),
          pres3 _ _ (fun hc => d22 hc.symm) (fun hc => d32 hc.1.symm)]
      exact user_bit_iff.mp hu3
    · rw [Memory.write_ne _ _ (fun hc => d23 hc.1.symm)]
      exact user_bit_iff.mp hu2
    · rw [Memory.write_self]
      exact kernelLeafWord_user physical flags cm halp
    · rw [Memory.write_self]
      exact kernelLeafWord_global physical flags cm
  · intro m root fA fB fC pointer physical flags cm r hmap d41 d31 d32 d21 d22 d23
    obtain ⟨m1, m2, m3, h1, h2, h3, halp, hr1⟩ := clientMap_stages hmap
    obtain ⟨hu4, _, pres1⟩ := clientEnsure_inv h1
    obtain ⟨hu3, _, pres2⟩ := clientEnsure_inv h2
    obtain ⟨hu2, _, pres3⟩ := clientEnsure_inv h3
    rw [hr1]
    refine ⟨?_, ?_, ?_, ?_⟩
    · rw [Memory.write_ne _ _ (fun hc => d21 hc.1.symm),
          pres3 _ _ (fun hc => d21 hc.symm) (fun hc => d31 hc.1.symm),
          pres2 _ _ (fun hc => d31 hc.symm) (fun hc => d41 hc.1.symm)]
      exact (clientUserOk_elim hu4).1 rfl
    · rw [Memory.write_ne _ _ (fun hc => d22 hc.1.symm),
          pres3 _ _ (fun hc => d22 hc.symm) (fun hc => d32 hc.1.symm)]
      exact (clientUserOk_elim hu3).1 rfl
    · rw [Memory.write_ne _ _ (fun hc => d23 hc.1.symm)]
      exact (clientUserOk_elim hu2).1 rfl
    · rw [Memory.write_self]
      exact clientLeafWord_user physical flags cm

theorem claim_C6_witness :
    (freshKernelMap.1 0x1000 (walkIndex 0 39)).testBit 2 = false ∧
    (freshKernelMap.1 freshKernelMap.2.2.2 (walkIndex 0 12)).testBit 8 = true ∧
    (freshClientMap.1 0x1000 (walkIndex 0 39)).testBit 2 = true ∧
    (freshClientMap.1 freshClientMap.2.2.2 (walkIndex 0 12)).testBit 2 = true := by
  have hk := claim_C6.1 zeroMem 0x1000 0x2000 0x3000 0x4000 0 0x5000 3 CachingMode.null
    freshKernelMap rfl (by decide) (by decide) (by decide) (by decide) (by decide)
    (by decide)
  have hc := claim_C6.2 zeroMem 0x1000 0x2000 0x3000 0x4000 0 0x5000 3 CachingMode.null
    freshClientMap rfl (by decide) (by decide) (by decide) (by decide) (by decide)
    (by decide)
  exact ⟨hk.1, hk.2.2.2.2, hc.1, hc.2.2.2⟩

/-- C7: PageSpace::activate.  If some binding in the CPU's binding array is
currently bound to `space`, activate keeps such a binding: the choice is
`keep i` for a bound slot `i` and activate only calls makePrimary on it (no
rebind, the space table is untouched).  Otherwise, on a PCID-capable CPU
the evicted slot has the smallest primaryStamp of the whole array, and on a
non-PCID CPU slot 0 is always evicted.  The hypothesis reflects that on a
non-PCID CPU only slot 0 is ever used (the loop breaks after index 0). -/
theorem claim_C7 (alive : Nat → Bool) (cpu : CpuSt) (space : Nat) (sp : Nat → SpaceSt)
    (hnp : cpu.havePcids = false →
      ∀ i, 0 < i → i < maxPcidCount → grabSpace alive (cpu.bindings i) ≠ some space) :
    ((∃ i, i < maxPcidCount ∧ grabSpace alive (cpu.bindings i) = some space) →
      ∃ i, i < maxPcidCount ∧ grabSpace alive (cpu.bindings i) = some space ∧
        activateChoice alive cpu space = ActivateChoice.keep i ∧
        activate alive sp cpu space = (makePrimary alive cpu i).map (fun c => (c, sp))) ∧
    ((∀ i, i < maxPcidCount → grabSpace alive (cpu.bindings i) ≠ some space) →
      (cpu.havePcids = true →
        ∃ k, k < maxPcidCount ∧ activateChoice alive cpu space = ActivateChoice.evict k ∧
          ∀ j, j < maxPcidCount →
            (cpu.bindings k).primaryStamp ≤ (cpu.bindings j).primaryStamp) ∧
      (cpu.havePcids = false →
        activateChoice alive cpu space = ActivateChoice.evict 0)) := by
  constructor
  · rintro ⟨i, hi, hPi⟩
    cases hhp : cpu.havePcids with
    | false =>
      have hP0 : grabSpace alive (cpu.bindings 0) = some space := by
        rcases Nat.eq_zero_or_pos i with h0 | h0
        · exact h0 ▸ hPi
        · exact absurd hPi (hnp hhp i h0 hi)
      have hch : activateChoice alive cpu space = ActivateChoice.keep 0 := by
        unfold activateChoice
        rw [hhp]
        show activateScan alive false cpu.bindings space 0 0 (7 + 1) = _
        rw [scan_nopcid 0 0 7, if_pos hP0]
      refine ⟨0, by decide, hP0, hch, ?_⟩
      unfold activate
      rw [hch]
    | true =>
      obtain ⟨j, hscan⟩ :=
        scan_keep_complete maxPcidCount 0 0 ⟨i, Nat.zero_le i, by omega, hPi⟩
      have hch : activateChoice alive cpu space = ActivateChoice.keep j := by
        unfold activateChoice
        rw [hhp]
        exact hscan
      obtain ⟨hPj, _, hjlt⟩ := scan_keep_sound maxPcidCount 0 0 j hscan
      refine ⟨j, by omega, hPj, hch, ?_⟩
      unfold activate
      rw [hch]
  · intro hnone
    constructor
    · intro hhp
      obtain ⟨k', hscan, hpos, _, hmin⟩ := scan_evict_min maxPcidCount 0 0
        (fun j _ h2 => hnone j (by omega))
      have hch : activateChoice alive cpu space = ActivateChoice.evict k' := by
        unfold activateChoice
        rw [hhp]
        exact hscan
      have hmax : (0 : Nat) < maxPcidCount := by decide
      refine ⟨k', ?_, hch, fun j hj => hmin j (Nat.zero_le j) (by omega)⟩
      rcases hpos with h | ⟨_, h⟩
      · omega
      · omega
    · intro hhp
      unfold activateChoice
      rw [hhp]
      show activateScan alive false cpu.bindings space 0 0 (7 + 1) = _
      rw [scan_nopcid 0 0 7, if_neg (hnone 0 (by decide))]

theorem claim_C7_witness :
    ((∃ i, i < maxPcidCount ∧ grabSpace aliveAll (boundCpu.bindings i) = some 5) →
      ∃ i, i < maxPcidCount ∧ grabSpace aliveAll (boundCpu.bindings i) = some 5 ∧
        activateChoice aliveAll boundCpu 5 = ActivateChoice.keep i ∧
        activate aliveAll emptySpaces boundCpu 5 =
          (makePrimary aliveAll boundCpu i).map (fun c => (c, emptySpaces))) ∧
    ((∀ i, i < maxPcidCount → grabSpace aliveAll (boundCpu.bindings i) ≠ some 5) →
      (boundCpu.havePcids = true →
        ∃ k, k < maxPcidCount ∧
          activateChoice aliveAll boundCpu 5 = ActivateChoice.evict k ∧
          ∀ j, j < maxPcidCount →
            (boundCpu.bindings k).primaryStamp ≤ (boundCpu.bindings j).primaryStamp) ∧
      (boundCpu.havePcids = false →
        activateChoice aliveAll boundCpu 5 = ActivateChoice.evict 0)) :=
  claim_C7 aliveAll boundCpu 5 emptySpaces (fun h => absurd h (by decide))

/-- C10: after a successful PageSpace::activate, the CPU's PageContext has a
primary binding whose bound space upgrades to the activated space, whose
`wasRebound` flag is clear, and whose `primaryStamp` strictly exceeds the
primaryStamp of every other binding in the array.  The stamp hypothesis is
the standing invariant that every stamp was drawn from an earlier value of
the context's `nextStamp` counter. -/
theorem claim_C10 (alive : Nat → Bool) (sp : Nat → SpaceSt) (cpu : CpuSt) (space : Nat)
    (cpu' : CpuSt) (sp' : Nat → SpaceSt)
    (hact : activate alive sp cpu space = some (cpu', sp'))
    (halive : alive space = true)
    (hstamp : ∀ j, j < maxPcidCount → (cpu.bindings j).primaryStamp < cpu.nextStamp) :
    ∃ i, i < maxPcidCount ∧ cpu'.primaryBinding = some i ∧
      grabSpace alive (cpu'.bindings i) = some space ∧
      (cpu'.bindings i).wasRebound = false ∧
      ∀ j, j < maxPcidCount → j ≠ i →
        (cpu'.bindings j).primaryStamp < (cpu'.bindings i).primaryStamp := by
  unfold activate at hact
  split at hact
  · rename_i i heq
    rw [Option.map_eq_some'] at hact
    obtain ⟨c, hmp, hfc⟩ := hact
    simp only [Prod.mk.injEq] at hfc
    obtain ⟨hc, _⟩ := hfc
    subst hc
    have hinv := makePrimary_some hmp
    subst hinv
    unfold activateChoice at heq
    obtain ⟨hPi, _, hilt⟩ := scan_keep_sound maxPcidCount 0 0 i heq
    refine ⟨i, by omega, rfl, ?_, ?_, ?_⟩
    · dsimp only
      rw [if_pos rfl]
      exact hPi
    · dsimp only
      rw [if_pos rfl]
    · intro j hj hne
      dsimp only
      rw [if_neg hne, if_pos rfl]
      exact hstamp j hj
  · rename_i k heq
    rw [Option.map_eq_some'] at hact
    obtain ⟨c, hmp, hfc⟩ := hact
    simp only [Prod.mk.injEq] at hfc
    obtain ⟨hc, _⟩ := hfc
    subst hc
    have hinv := makePrimary_some hmp
    subst hinv
    unfold activateChoice at heq
    have hklt : k < maxPcidCount :=
      scan_evict_lt maxPcidCount 0 0 maxPcidCount k (by decide) (by omega) heq
    refine ⟨k, hklt, rfl, ?_, ?_, ?_⟩
    · dsimp only
      rw [if_pos rfl]
      unfold grabSpace
      dsimp only
      rw [if_pos rfl, rebind_boundSpace]
      dsimp only
      exact if_pos halive
    · dsimp only
      rw [if_pos rfl]
    · intro j hj hne
      dsimp only
      rw [if_neg hne, if_pos rfl, if_neg hne]
      exact hstamp j hj

theorem claim_C10_witness :
    ∃ i, i < maxPcidCount ∧
      ((activate aliveAll emptySpaces idleCpu 5).get rfl).1.primaryBinding = some i ∧
      grabSpace aliveAll (((activate aliveAll emptySpaces idleCpu 5).get rfl).1.bindings i)
        = some 5 ∧
      (((activate aliveAll emptySpaces idleCpu 5).get rfl).1.bindings i).wasRebound
        = false ∧
      ∀ j, j < maxPcidCount → j ≠ i →
        (((activate aliveAll emptySpaces idleCpu 5).get rfl).1.bindings j).primaryStamp
          < (((activate aliveAll emptySpaces idleCpu 5).get rfl).1.bindings i).primaryStamp :=
  claim_C10 aliveAll emptySpaces idleCpu 5
    ((activate aliveAll emptySpaces idleCpu 5).get rfl).1
    ((activate aliveAll emptySpaces idleCpu 5).get rfl).2
    rfl rfl (fun _ _ => Nat.zero_lt_one)

end ThorPaging
